import Mathlib

/-!
Verification of the scenario-template expansion and two-phase action engine
(`pygcam/xmlSetup.py`), shallowly embedded in Lean 4.

Modelling conventions:
* Python strings are Lean `String`; Python string helpers (`str.strip`,
  `str.split(',')`, `str.format(**dict)`) are embedded below over `List Char`,
  covering the `\x7bidentifier\x7d` placeholder subset the engine uses.
* Python dicts (insertion ordered, replace-in-place on key update) are
  association lists with an order-preserving `set`.
* Raised exceptions are `Except PyError` (for expansion-time code) or a
  trailing `Option PyError` (for run-time code, which also returns the state
  reached when the exception was raised).
* The external `XMLEditor` collaborator (file `xmlEditor.py`, not part of the
  sources) is modelled by a trace of the mutation calls the engine issues,
  plus an environment giving each call's runtime outcome.
* Attributes the schema requires (`name` on scenarios/groups/iterators,
  `value1`/`value2` on `if`) are `String`; optional attributes are
  `Option String`.
-/

/-- Python exceptions raised by the engine. -/
inductive PyError where
  | setupException (msg : String)
  | pygcamException (msg : String)
  | keyError (key : Option String)
  | valueError
  deriving DecidableEq, Repr

deriving instance DecidableEq for Except

/-- A Python dict from `str` to `str` as an insertion-ordered association
list. -/
abbrev Dict := List (String × String)

/-- Python dict lookup: `d[k]` (first — and only — binding of the key). -/
def Dict.get? : Dict → String → Option String
  | [], _ => none
  | (k, v) :: rest, key => if k = key then some v else Dict.get? rest key

/-- Python dict update `d[k] = v`: replaces an existing binding in place,
otherwise appends at the end (insertion order). -/
def Dict.set : Dict → String → String → Dict
  | [], k, v => [(k, v)]
  | (k', v') :: rest, k, v =>
      if k' = k then (k, v) :: rest else (k', v') :: Dict.set rest k v

/-- Python `a or b` on optional strings: `None` and `""` are falsy. -/
def pyOrStr (a b : Option String) : Option String :=
  match a with
  | some s => if s = "" then b else some s
  | none => b

/-- Python `"%s" % x` where `x` is an optional string: `None` prints as
`"None"`. -/
def pyStrOpt (x : Option String) : String :=
  match x with
  | some s => s
  | none => "None"

/-- Python `str.strip`: drop leading and trailing whitespace. -/
def pyStrip (s : String) : String :=
  String.mk (((s.data.dropWhile Char.isWhitespace).reverse.dropWhile
      Char.isWhitespace).reverse)

/-- Splitting a character list at commas; `[]` yields `[[]]` as Python
`"".split(",")` yields `[""]`. -/
def splitCommaChars : List Char → List (List Char)
  | [] => [[]]
  | c :: rest =>
      if c = ',' then [] :: splitCommaChars rest
      else
        match splitCommaChars rest with
        | [] => [[c]]
        | g :: gs => (c :: g) :: gs

/-- Python `s.split(",")`. -/
def pySplitComma (s : String) : List String :=
  (splitCommaChars s.data).map String.mk

/-- Scanner modes for the `str.format` pass: ordinary text, just after an
opening brace, inside a replacement-field name, just after a closing brace. -/
inductive FmtMode where
  | normal
  | afterLBrace
  | inField (nm : List Char)
  | afterRBrace
  deriving DecidableEq

/-- Python `str.format(**d)` over a character list, for the
`\x7bidentifier\x7d` placeholder subset the engine uses: doubled braces are
escapes, a field name is looked up in the dict (a missing key raises
`KeyError`; the replacement text is inserted verbatim, never re-scanned), and
an unterminated field or a lone closing brace raises `ValueError`. -/
def formatRun (d : Dict) : FmtMode → List Char → Except PyError (List Char)
  | .normal, [] => Except.ok []
  | .afterLBrace, [] => Except.error PyError.valueError
  | .inField _, [] => Except.error PyError.valueError
  | .afterRBrace, [] => Except.error PyError.valueError
  | .normal, c :: rest =>
      if c = '{' then formatRun d .afterLBrace rest
      else if c = '}' then formatRun d .afterRBrace rest
      else (fun t => c :: t) <$> formatRun d .normal rest
  | .afterLBrace, c :: rest =>
      if c = '{' then (fun t => '{' :: t) <$> formatRun d .normal rest
      else if c = '}' then
        match Dict.get? d "" with
        | none => Except.error (PyError.keyError (some ""))
        | some v => (fun t => v.data ++ t) <$> formatRun d .normal rest
      else formatRun d (.inField [c]) rest
  | .inField nm, c :: rest =>
      if c = '}' then
        match Dict.get? d (String.mk nm) with
        | none => Except.error (PyError.keyError (some (String.mk nm)))
        | some v => (fun t => v.data ++ t) <$> formatRun d .normal rest
      else formatRun d (.inField (nm ++ [c])) rest
  | .afterRBrace, c :: rest =>
      if c = '}' then (fun t => '}' :: t) <$> formatRun d .normal rest
      else Except.error PyError.valueError

/-- Python `s.format(**d)`. -/
def formatString (d : Dict) (s : String) : Except PyError String :=
  String.mk <$> formatRun d .normal s.data

example : formatString [("a", "1")] "x-{a}" = Except.ok "x-1" := by decide
example : pyStrip "  y " = "y" := by decide
example : pySplitComma "x , y" = ["x ", " y"] := by decide
example : formatString [("a", "{b}"), ("b", "x")] "{a}" = Except.ok "{b}" := by
  decide

/-!
Numeric range generators (`frange` / `irange` in the source): Python `while`
loops that include the stop value (`start <= stop`, not `start < stop`).  The
source loops forever when `step <= 0`; the embedding is defined (as `[]`) only
past the guard `0 < step`, which every terminating use satisfies.  Floats are
modelled as exact rationals. -/

/-- `irange(start, stop, step)`: ints from `start` while `<= stop`. -/
def irange (start stop step : Int) : List Int :=
  if h : 0 < step ∧ start ≤ stop then start :: irange (start + step) stop step
  else []
termination_by (stop - start + 1).toNat
decreasing_by omega

/-- `frange(start, stop, step)`: floats (modelled as rationals) from `start`
while `<= stop`. -/
def frange (start stop step : ℚ) : List ℚ :=
  if h : 0 < step ∧ start ≤ stop then start :: frange (start + step) stop step
  else []
termination_by (⌊(stop - start) / step⌋ + 1).toNat
decreasing_by
  have hstep : step ≠ 0 := ne_of_gt h.1
  have hx : (0:ℚ) ≤ (stop - start) / step := by
    apply div_nonneg <;> linarith [h.1, h.2]
  have hfl : (0:ℤ) ≤ ⌊(stop - start) / step⌋ := Int.floor_nonneg.mpr hx
  have h1 : stop - (start + step) = (stop - start) - step := by ring
  have heq : (stop - (start + step)) / step = (stop - start) / step - 1 := by
    rw [h1, sub_div, div_self hstep]
  rw [heq, Int.floor_sub_one]
  omega

/-- `Iterator` values for `type="int"`: each value of `irange` rendered with
the default `"%d"` format. -/
def intIteratorValues (minV maxV step : Int) : List String :=
  (irange minV maxV step).map (fun v => toString v)

/-- Python truthiness of an optional string (`None` and `""` are falsy). -/
def pyTruthyOpt (o : Option String) : Bool :=
  match o with
  | some s => s ≠ ""
  | none => false

/-- Ordered association-list lookup (Python `d[k]`, as `Option`). -/
def alistGet? {α : Type} : List (String × α) → String → Option α
  | [], _ => none
  | (k, v) :: rest, key => if k = key then some v else alistGet? rest key

/-- Ordered association-list update (Python `d[k] = v`): replace in place or
append. -/
def alistSet {α : Type} : List (String × α) → String → α → List (String × α)
  | [], k, v => [(k, v)]
  | (k', v') :: rest, k, v =>
      if k' = k then (k, v) :: rest else (k', v') :: alistSet rest k v

/-- A call issued to the external `XMLEditor` collaborator.  The four
component mutations carry exactly the arguments the source passes; a
`Function` action's `eval("editor.name(args)")` is recorded as the code
string it evaluates. -/
inductive EditorCall where
  | insertScenarioComponent (name content after : Option String)
  | addScenarioComponent (name content : Option String)
  | updateScenarioComponent (name content : Option String)
  | deleteScenarioComponent (name : Option String)
  | functionCall (codeStr : String)
  deriving DecidableEq, Repr

/-- Runtime environment for the external collaborators: `beh` gives each
editor invocation's outcome (`none` = success); `callables` models
`getCallableMethod` from the absent `xmlEditor.py` (the set of capability
names callable from XML); `compiles` models the Python parser's acceptance of
an `eval` code string (a rejection is a `SyntaxError`). -/
structure RunEnv where
  beh : EditorCall → Option PyError
  callables : List String
  compiles : String → Bool

/-- Modelled from the spec: `getCallableMethod` is defined in `xmlEditor.py`,
which is not among the sources; the spec (§6) describes it as capability
lookup by name returning an invokable bound to the editor, or none if
undefined.  The environment carries the defined capability names. -/
def getCallableMethod (env : RunEnv) (name : Option String) : Bool :=
  match name with
  | some n => env.callables.contains n
  | none => false

/-- The four `ConfigAction` subclasses whose `_run` issues one component
mutation; `Insert` carries its `after` anchor. -/
inductive MutKind where
  | insert (after : Option String)
  | add
  | replace
  | delete
  deriving DecidableEq, Repr

/-- The single editor mutation `_run` performs for each `MutKind`
(`Insert._run`, `Add._run`, `Replace._run`, `Delete._run`). -/
def mutCall (k : MutKind) (name fc : Option String) : EditorCall :=
  match k with
  | .insert after => .insertScenarioComponent name fc after
  | .add => .addScenarioComponent name fc
  | .replace => .updateScenarioComponent name fc
  | .delete => .deleteScenarioComponent name

/-- The action tree: `config` covers `Insert`/`Add`/`Replace`/`Delete`,
`func` is `Function`, `cond` is `If` with its nested child actions.  Fields
mirror the Python attributes (`content`/`formattedContent` from
`ConfigActionBase`; `If` keeps them but its `formatContent` never touches
them). -/
inductive ActionNode where
  | config (kind : MutKind) (name : Option String) (dynamic : Bool)
      (content formattedContent : Option String)
  | func (name : Option String) (dynamic : Bool)
      (content formattedContent : Option String)
  | cond (value1 value2 : String) (matchesFlag : Bool)
      (formattedValue1 formattedValue2 : String)
      (content formattedContent : Option String)
      (actions : List ActionNode)

/-- `ConfigActionBase.formatContent`: format the cached value if present
(and truthy), else the raw content; a falsy source leaves `None`. -/
def formatContentField (d : Dict) (content formattedContent : Option String) :
    Except PyError (Option String) :=
  match pyOrStr formattedContent content with
  | none => Except.ok none
  | some s => if s = "" then Except.ok none else (formatString d s).map some

mutual

/-- `formatContent` of each action class: `ConfigActionBase.formatContent`
for `config`/`func`; `If.formatContent` formats `value1`/`value2` (falling
back to the raw attributes while the formatted fields are still `""`) and
recurses into the children. -/
def ActionNode.formatContent (d : Dict) : ActionNode → Except PyError ActionNode
  | .config k n dy c fc =>
      (formatContentField d c fc).map (fun fc' => .config k n dy c fc')
  | .func n dy c fc =>
      (formatContentField d c fc).map (fun fc' => .func n dy c fc')
  | .cond v1 v2 m fv1 fv2 c fc as =>
      match formatString d (if fv1 = "" then v1 else fv1) with
      | .error e => .error e
      | .ok fv1' =>
          match formatString d (if fv2 = "" then v2 else fv2) with
          | .error e => .error e
          | .ok fv2' =>
              match ActionNode.formatContentList d as with
              | .error e => .error e
              | .ok as' => .ok (.cond v1 v2 m fv1' fv2' c fc as')

/-- `formatContent` over a list of sibling actions, in order. -/
def ActionNode.formatContentList (d : Dict) : List ActionNode → Except PyError (List ActionNode)
  | [] => Except.ok []
  | a :: rest =>
      match ActionNode.formatContent d a with
      | .error e => .error e
      | .ok a' =>
          match ActionNode.formatContentList d rest with
          | .error e => .error e
          | .ok rest' => .ok (a' :: rest')

end

mutual

/-- `run(editor, directoryDict, dynamic)` of one action.  Returns the action
(Python mutates it in place), the editor-call trace, and the raised exception
if any.  `ConfigAction.run` acts only when the action's `dynamic` flag equals
the phase flag: it formats the content against `directoryDict` and issues its
single mutation.  `Function._run` looks up the capability, then evaluates
`editor.name(args)` (a `SyntaxError` becomes a `SetupException`).  `If.run`
ignores the phase flag: it strips the comma-split alternatives of
`formattedValue2` and runs the children exactly when membership of
`formattedValue1` equals `matches`. -/
def ActionNode.run (env : RunEnv) (dd : Dict) (dyn : Bool) :
    ActionNode → List EditorCall → ActionNode × List EditorCall × Option PyError
  | .config k n adyn c fc, ed =>
      if adyn = dyn then
        match formatContentField dd c fc with
        | .error e => (.config k n adyn c fc, ed, some e)
        | .ok fc' =>
            let call := mutCall k n fc'
            (.config k n adyn c fc', ed ++ [call], env.beh call)
      else (.config k n adyn c fc, ed, none)
  | .func n adyn c fc, ed =>
      if adyn = dyn then
        match formatContentField dd c fc with
        | .error e => (.func n adyn c fc, ed, some e)
        | .ok fc' =>
            if getCallableMethod env n then
              let codeStr := "editor." ++ pyStrOpt n ++ "(" ++ pyStrOpt fc' ++ ")"
              if env.compiles codeStr then
                (.func n adyn c fc', ed ++ [.functionCall codeStr],
                  env.beh (.functionCall codeStr))
              else
                (.func n adyn c fc', ed, some (.setupException
                  ("Failed to evaluate expression " ++ codeStr)))
            else
              (.func n adyn c fc', ed, some (.setupException
                ("<function name=\x27" ++ pyStrOpt n ++
                 "\x27>: function doesn\x27t exist or is not callable from XML")))
      else (.func n adyn c fc, ed, none)
  | .cond v1 v2 m fv1 fv2 c fc as, ed =>
      if ((pySplitComma fv2).map pyStrip).contains fv1 = m then
        match ActionNode.runList env dd dyn as ed with
        | (as', ed', e) => (.cond v1 v2 m fv1 fv2 c fc as', ed', e)
      else (.cond v1 v2 m fv1 fv2 c fc as, ed, none)

/-- Run sibling actions in declaration order; the first exception aborts the
remaining ones (they are returned untouched). -/
def ActionNode.runList (env : RunEnv) (dd : Dict) (dyn : Bool) :
    List ActionNode → List EditorCall → List ActionNode × List EditorCall × Option PyError
  | [], ed => ([], ed, none)
  | a :: rest, ed =>
      match ActionNode.run env dd dyn a ed with
      | (a', ed', none) =>
          match ActionNode.runList env dd dyn rest ed' with
          | (rest', ed'', e) => (a' :: rest', ed'', e)
      | (a', ed', some e) => (a' :: rest, ed', some e)

end


/-- A `scenario` node: a named, ordered sequence of actions.  The source also
keeps the raw XML node; in the iterator-driven expansion a fresh `Scenario`
built from that node is just this record in its raw (template) state. -/
structure Scenario where
  name : String
  isBaseline : Bool
  iteratorName : Option String
  actions : List ActionNode

/-- `Scenario.run`: run each owned action in declaration order. -/
def Scenario.run (env : RunEnv) (dd : Dict) (dyn : Bool) (s : Scenario)
    (ed : List EditorCall) : Scenario × List EditorCall × Option PyError :=
  match ActionNode.runList env dd dyn s.actions ed with
  | (as', ed', e) => ({ s with actions := as' }, ed', e)

/-- `Scenario.formatContent`: format each owned action against the template
context. -/
def Scenario.formatContent (d : Dict) (s : Scenario) : Except PyError Scenario :=
  (ActionNode.formatContentList d s.actions).map
    (fun as' => { s with actions := as' })

/-- A declared iterator, reduced to its generated value sequence (the
`min`/`max`/`step`/`format` attributes only feed the construction of
`values`; `intIteratorValues` models the numeric construction). -/
structure Iterator where
  name : String
  values : List String
  deriving DecidableEq, Repr

/-- `ScenarioSetup.getIterator`: named lookup, `SetupException` when the
iterator is not defined. -/
def getIterator (iterDict : List (String × Iterator)) (name : String) :
    Except PyError Iterator :=
  match alistGet? iterDict name with
  | some it => Except.ok it
  | none => Except.error (PyError.setupException
      ("Iterator \x27" ++ name ++ "\x27 is not defined"))

/-- The `for value in iterator.values` loop inside `iterateList`, generic in
the body run at each value: bind the value into the shared template dict,
run the body (one level deeper, or the `expand` callback at the innermost
level), carry the resulting dict and state to the next value. -/
def iterLoop {sg : Type} (body : Dict → sg → Except PyError (Dict × sg))
    (iterName : String) :
    List String → Dict → sg → Except PyError (Dict × sg)
  | [], td, s => Except.ok (td, s)
  | v :: vs, td, s =>
      match body (Dict.set td iterName v) s with
      | .error e => .error e
      | .ok (td2, s2) => iterLoop body iterName vs td2 s2

/-- `iterateList(scenarioSetup, cls, node, expandFunc, iterators)`: the
generalized nested loop.  The head iterator drives the outer loop; each of
its values is bound into the shared template dict, then the tail iterators
are evaluated one level deeper, or — when no iterators remain — the `expand`
callback is invoked (the callback receives the current dict, threads the
caller's accumulated state, and may itself extend the dict, as group-level
expansion does).  Python's `iterators[0]` on an empty list raises
`IndexError`, modelled as a `SetupException` (the callers always pass a
non-empty list). -/
def iterateList {sg : Type} (iterDict : List (String × Iterator))
    (expand : Dict → sg → Except PyError (Dict × sg)) :
    List String → Dict → sg → Except PyError (Dict × sg)
  | [], _, _ => Except.error (PyError.setupException "IndexError")
  | iterName :: otherIters, td, s =>
      match getIterator iterDict iterName with
      | .error e => .error e
      | .ok iter =>
          iterLoop
            (match h : otherIters with
             | [] => expand
             | _ :: _ => fun td2 s2 =>
                 iterateList iterDict expand otherIters td2 s2)
            iterName iter.values td s
termination_by iters => iters.length
decreasing_by
  simp only [h, List.length_cons]
  omega

/-- The `expand(scenario)` callback of `ScenarioGroup.expandScenarios`:
format the scenario's name against the template dict, store the scenario in
the final mapping under that name (a duplicate name silently overwrites the
earlier entry), and format its actions.  The source stores the object and
then formats it in place; on success the two orders agree, and on failure the
whole construction of the `ScenarioSetup` is aborted, so the transient state
is unobservable.  The template dict is read, never extended, at this level. -/
def expandScenarioInto (td : Dict) (fd : List (String × Scenario))
    (s : Scenario) : Except PyError (List (String × Scenario)) :=
  match formatString td s.name with
  | .error e => .error e
  | .ok name =>
      match Scenario.formatContent td { s with name := name } with
      | .error e => .error e
      | .ok s2 => .ok (alistSet fd name s2)

/-- The `for templateScenario in self.templateScenarios` loop of
`ScenarioGroup.expandScenarios`: a template without an iterator attribute
(absent or empty) expands exactly once under the current context; otherwise
the comma-split, stripped iterator names drive `iterateList`, expanding one
fresh copy of the raw template per combination. -/
def expandScenarioTemplates (iterDict : List (String × Iterator)) :
    List Scenario → Dict → List (String × Scenario) →
    Except PyError (Dict × List (String × Scenario))
  | [], td, fd => Except.ok (td, fd)
  | ts :: rest, td, fd =>
      if pyTruthyOpt ts.iteratorName then
        let iters := (pySplitComma (pyStrOpt ts.iteratorName)).map pyStrip
        match iterateList iterDict
            (fun d fd2 => (expandScenarioInto d fd2 ts).map (fun r => (d, r)))
            iters td fd with
        | .error e => .error e
        | .ok (td2, fd2) => expandScenarioTemplates iterDict rest td2 fd2
      else
        match expandScenarioInto td fd ts with
        | .error e => .error e
        | .ok fd2 => expandScenarioTemplates iterDict rest td fd2

/-- A `scenarioGroup` node.  `finalDict` is the name → expanded-scenario
mapping filled by `expandScenarios` (empty at parse time). -/
structure ScenarioGroup where
  name : String
  useGroupDir : Bool
  isDefault : Bool
  iteratorName : Option String
  baselineSource : Option String
  templateScenarios : List Scenario
  finalDict : List (String × Scenario)

/-- `ScenarioGroup.expandScenarios`: expand every scenario template of the
group into `finalDict`, threading the shared template dict. -/
def ScenarioGroup.expandScenarios (iterDict : List (String × Iterator))
    (g : ScenarioGroup) (td : Dict) : Except PyError (ScenarioGroup × Dict) :=
  match expandScenarioTemplates iterDict g.templateScenarios td g.finalDict with
  | .error e => .error e
  | .ok (td2, fd2) => .ok ({ g with finalDict := fd2 }, td2)

/-- The `expand(group)` callback of `ScenarioSetup.expandGroups`: format the
group's name, expand its scenarios (which may extend the shared template
dict), and store the expanded group under the formatted name (a duplicate
name silently overwrites the earlier entry). -/
def expandGroupInto (iterDict : List (String × Iterator)) (td : Dict)
    (gd : List (String × ScenarioGroup)) (g : ScenarioGroup) :
    Except PyError (Dict × List (String × ScenarioGroup)) :=
  match formatString td g.name with
  | .error e => .error e
  | .ok name =>
      match ScenarioGroup.expandScenarios iterDict { g with name := name } td with
      | .error e => .error e
      | .ok (g2, td2) => .ok (td2, alistSet gd name g2)

/-- The `for templateGroup in templateGroups` loop of
`ScenarioSetup.expandGroups`, mirroring `expandScenarioTemplates` one level
up. -/
def expandGroupTemplates (iterDict : List (String × Iterator)) :
    List ScenarioGroup → Dict → List (String × ScenarioGroup) →
    Except PyError (Dict × List (String × ScenarioGroup))
  | [], td, gd => Except.ok (td, gd)
  | tg :: rest, td, gd =>
      if pyTruthyOpt tg.iteratorName then
        let iters := (pySplitComma (pyStrOpt tg.iteratorName)).map pyStrip
        match iterateList iterDict
            (fun d gd2 => expandGroupInto iterDict d gd2 tg) iters td gd with
        | .error e => .error e
        | .ok (td2, gd2) => expandGroupTemplates iterDict rest td2 gd2
      else
        match expandGroupInto iterDict td gd tg with
        | .error e => .error e
        | .ok (td2, gd2) => expandGroupTemplates iterDict rest td2 gd2

/-- The parsed, cached representation of one setup document, after
`expandGroups` has filled `groupDict`. -/
structure ScenarioSetup where
  name : String
  defaultGroup : Option String
  templateDict : Dict
  iteratorDict : List (String × Iterator)
  groupDict : List (String × ScenarioGroup)

/-- The editor-declared identifiers `ScenarioSetup.run` reads to select the
group and scenario. -/
structure Editor where
  groupName : Option String
  scenario : Option String
  baseline : Option String

/-- `ScenarioGroup.getFinalScenario`: look up a final scenario by name; a
missing name raises `PygcamException` (whose message interpolates the group's
name into the first slot and the requested scenario name into the second —
the slots are swapped relative to the message's wording, as in the source). -/
def ScenarioGroup.getFinalScenario (g : ScenarioGroup) (name : Option String) :
    Except PyError Scenario :=
  match (match name with
         | some n => alistGet? g.finalDict n
         | none => none) with
  | some s => Except.ok s
  | none =>
      Except.error (PyError.pygcamException
        ("Scenario \x22" ++ g.name ++ "\x22 was not found in group \x22" ++
         pyStrOpt name ++ "\x22"))

/-- `ScenarioSetup.run(editor, directoryDict, dynamic)`: resolve the group by
the editor's group name (or the document's default when that is falsy) —
a missing key raises `KeyError` — resolve the scenario by the editor's
scenario (or baseline) name, and delegate to `Scenario.run`. -/
def ScenarioSetup.run (setup : ScenarioSetup) (env : RunEnv) (editor : Editor)
    (dd : Dict) (dyn : Bool) (ed : List EditorCall) :
    List EditorCall × Option PyError :=
  let gkey := pyOrStr editor.groupName setup.defaultGroup
  match (match gkey with
         | some k => alistGet? setup.groupDict k
         | none => none) with
  | none => (ed, some (PyError.keyError gkey))
  | some group =>
      match group.getFinalScenario (pyOrStr editor.scenario editor.baseline) with
      | .error e => (ed, some e)
      | .ok scen =>
          match Scenario.run env dd dyn scen ed with
          | (_, ed2, e) => (ed2, e)

/-- Every value emitted by `irange` lies in the inclusive interval
`[start, stop]` (fuel-indexed formulation for the induction). -/
theorem irange_bounds_fuel (stop step : Int) (hs : 0 < step) :
    ∀ (n : Nat) (start : Int), (stop - start + 1).toNat ≤ n →
      ∀ v ∈ irange start stop step, start ≤ v ∧ v ≤ stop := by
  intro n
  induction n with
  | zero =>
      intro start hle v hv
      rw [irange] at hv
      split at hv
      · rename_i hcond
        exfalso
        omega
      · simp at hv
  | succ n ih =>
      intro start hle v hv
      rw [irange] at hv
      split at hv
      · rename_i hcond
        rcases List.mem_cons.mp hv with h | h
        · subst h
          exact ⟨le_refl _, hcond.2⟩
        · have := ih (start + step) (by omega) v h
          exact ⟨by omega, this.2⟩
      · simp at hv

/-- Every value emitted by `frange` lies in the inclusive interval
`[start, stop]` (fuel-indexed formulation for the induction). -/
theorem frange_bounds_fuel (stop step : ℚ) (hs : 0 < step) :
    ∀ (n : Nat) (start : ℚ), (⌊(stop - start) / step⌋ + 1).toNat ≤ n →
      ∀ v ∈ frange start stop step, start ≤ v ∧ v ≤ stop := by
  intro n
  induction n with
  | zero =>
      intro start hle v hv
      rw [frange] at hv
      split at hv
      · rename_i hcond
        exfalso
        have hx : (0:ℚ) ≤ (stop - start) / step :=
          div_nonneg (by linarith [hcond.2]) (le_of_lt hs)
        have hfl : (0:ℤ) ≤ ⌊(stop - start) / step⌋ := Int.floor_nonneg.mpr hx
        omega
      · simp at hv
  | succ n ih =>
      intro start hle v hv
      rw [frange] at hv
      split at hv
      · rename_i hcond
        rcases List.mem_cons.mp hv with h | h
        · subst h
          exact ⟨le_refl _, hcond.2⟩
        · have h1 : stop - (start + step) = (stop - start) - step := by ring
          have heq : (stop - (start + step)) / step = (stop - start) / step - 1 := by
            rw [h1, sub_div, div_self (ne_of_gt hs)]
          have hmeas : (⌊(stop - (start + step)) / step⌋ + 1).toNat ≤ n := by
            rw [heq, Int.floor_sub_one]
            have hx : (0:ℚ) ≤ (stop - start) / step :=
              div_nonneg (by linarith [hcond.2]) (le_of_lt hs)
            have hfl : (0:ℤ) ≤ ⌊(stop - start) / step⌋ := Int.floor_nonneg.mpr hx
            omega
          have := ih (start + step) hmeas v h
          exact ⟨by linarith [this.1], this.2⟩
      · simp at hv

/-- C3: a numeric iterator's value sequence starts at `min`, advances by
`step`, and stops only once the current value exceeds `max` — the upper bound
is inclusive: whenever the guard `start <= stop` holds the current value is
emitted and the loop continues from `start + step`, every emitted value lies
in `[min, max]`, and the loop stops exactly when the current value exceeds
`max`.  In particular the integer iterator `min=1, max=3, step=1` yields
`["1","2","3"]` and `min=1, max=3, step=2` yields `["1","3"]` (float
iterators, modelled over exact rationals, satisfy the same laws). -/
theorem claim_C3_numeric_iterator_inclusive :
    (∀ start stop step : Int, 0 < step →
       (∀ v ∈ irange start stop step, start ≤ v ∧ v ≤ stop) ∧
       (start ≤ stop →
         irange start stop step = start :: irange (start + step) stop step) ∧
       (stop < start → irange start stop step = [])) ∧
    (∀ start stop step : ℚ, 0 < step →
       (∀ v ∈ frange start stop step, start ≤ v ∧ v ≤ stop) ∧
       (start ≤ stop →
         frange start stop step = start :: frange (start + step) stop step) ∧
       (stop < start → frange start stop step = [])) ∧
    intIteratorValues 1 3 1 = ["1", "2", "3"] ∧
    intIteratorValues 1 3 2 = ["1", "3"] := by
  refine ⟨?_, ?_, ?_, ?_⟩
  · intro start stop step hs
    refine ⟨irange_bounds_fuel stop step hs _ start le_rfl, ?_, ?_⟩
    · intro hle
      rw [irange]
      simp [hs, hle]
    · intro hgt
      rw [irange]
      simp
      intro _
      omega
  · intro start stop step hs
    refine ⟨frange_bounds_fuel stop step hs _ start le_rfl, ?_, ?_⟩
    · intro hle
      rw [frange]
      simp [hs, hle]
    · intro hgt
      rw [frange]
      simp
      intro _
      linarith
  · simp [intIteratorValues, irange]
    decide
  · simp [intIteratorValues, irange]
    decide

/-- Witness for C3 at a concrete input: `2` is emitted by `irange 1 3 1` and
the theorem places it within the inclusive bounds. -/
theorem claim_C3_witness :
    2 ∈ irange 1 3 1 ∧ ((1:Int) ≤ 2 ∧ (2:Int) ≤ 3) :=
  have hm : 2 ∈ irange 1 3 1 := by simp [irange]
  ⟨hm, (claim_C3_numeric_iterator_inclusive.1 1 3 1 (by norm_num)).1 2 hm⟩

/-- A concrete runtime environment for witnesses: every editor call succeeds,
one capability `setTol` is callable from XML, every code string parses. -/
def sampleEnv : RunEnv :=
  { beh := fun _ => none, callables := ["setTol"], compiles := fun _ => true }

/-- C1: for each capability-mutation action (`Insert`/`Add`/`Replace`/
`Delete`), `run(editor, directories, dynamic)` with the action's `dynamic`
flag differing from the phase flag invokes nothing and leaves the action
unchanged; with matching flags (and content formatting succeeding) it
invokes exactly the one corresponding editor mutation, with
`(name, formattedContent)` and — for `Insert` — the `after` anchor. -/
theorem claim_C1_mutation_phase_dispatch
    (env : RunEnv) (dd : Dict) (dyn : Bool) (k : MutKind)
    (n : Option String) (adyn : Bool) (c fc : Option String)
    (ed : List EditorCall) :
    (adyn ≠ dyn →
      ActionNode.run env dd dyn (.config k n adyn c fc) ed =
        (.config k n adyn c fc, ed, none)) ∧
    (adyn = dyn → ∀ fc', formatContentField dd c fc = .ok fc' →
      ActionNode.run env dd dyn (.config k n adyn c fc) ed =
        (.config k n adyn c fc', ed ++ [mutCall k n fc'],
         env.beh (mutCall k n fc'))) := by
  constructor
  · intro hne
    rw [ActionNode.run]
    simp [hne]
  · intro heq fc' hfc
    subst heq
    rw [ActionNode.run]
    simp [hfc]

/-- Witness for C1 at concrete inputs: a `dynamic=true` `Add` is skipped
untouched in the static phase, and a `dynamic=false` `Add` in the static
phase issues exactly one `addScenarioComponent` call. -/
theorem claim_C1_witness :
    (ActionNode.run sampleEnv [] false
        (.config .add (some "f") true (some "x") none) [] =
      (.config .add (some "f") true (some "x") none, [], none)) ∧
    (ActionNode.run sampleEnv [] false
        (.config .add (some "f") false (some "x") none) [] =
      (.config .add (some "f") false (some "x") (some "x"),
       [.addScenarioComponent (some "f") (some "x")], none)) :=
  ⟨(claim_C1_mutation_phase_dispatch sampleEnv [] false .add (some "f") true
      (some "x") none []).1 (by decide),
   (claim_C1_mutation_phase_dispatch sampleEnv [] false .add (some "f") false
      (some "x") none []).2 rfl (some "x") (by decide)⟩

/-- C2: `If.run` is evaluated in both phases — for every phase flag it tests
whether the formatted `value1` occurs among the comma-split (stripped)
alternatives of the formatted `value2`, runs the children (each still
phase-filtered by its own flag, being run through the ordinary dispatch)
exactly when that membership equals `matches`, and otherwise leaves
everything untouched. -/
theorem claim_C2_if_ignores_phase
    (env : RunEnv) (dd : Dict) (dyn : Bool) (v1 v2 : String) (m : Bool)
    (fv1 fv2 : String) (c fc : Option String) (as : List ActionNode)
    (ed : List EditorCall) :
    (((pySplitComma fv2).map pyStrip).contains fv1 = m →
      ActionNode.run env dd dyn (.cond v1 v2 m fv1 fv2 c fc as) ed =
        (match ActionNode.runList env dd dyn as ed with
         | (as2, ed2, e) => (.cond v1 v2 m fv1 fv2 c fc as2, ed2, e))) ∧
    (((pySplitComma fv2).map pyStrip).contains fv1 ≠ m →
      ActionNode.run env dd dyn (.cond v1 v2 m fv1 fv2 c fc as) ed =
        (.cond v1 v2 m fv1 fv2 c fc as, ed, none)) := by
  constructor
  · intro hc
    rw [ActionNode.run, if_pos hc]
  · intro hc
    rw [ActionNode.run, if_neg hc]

/-- Witness for C2 at the spec's concrete input: `If(value1="x",
value2="x,y", matches=true)` with one static `Add` child runs the child in
the static phase (one `addScenarioComponent` call); the same values with
`matches=false` run nothing. -/
theorem claim_C2_witness :
    (ActionNode.run sampleEnv [] false
        (.cond "x" "x,y" true "x" "x,y" none none
          [.config .add (some "f") false (some "p") none]) [] =
      (.cond "x" "x,y" true "x" "x,y" none none
          [.config .add (some "f") false (some "p") (some "p")],
       [.addScenarioComponent (some "f") (some "p")], none)) ∧
    (ActionNode.run sampleEnv [] false
        (.cond "x" "x,y" false "x" "x,y" none none
          [.config .add (some "f") false (some "p") none]) [] =
      (.cond "x" "x,y" false "x" "x,y" none none
          [.config .add (some "f") false (some "p") none], [], none)) := by
  constructor
  · have h := (claim_C2_if_ignores_phase sampleEnv [] false "x" "x,y" true
        "x" "x,y" none none
        [.config .add (some "f") false (some "p") none] []).1 (by decide)
    rw [h]
    rfl
  · exact (claim_C2_if_ignores_phase sampleEnv [] false "x" "x,y" false
        "x" "x,y" none none
        [.config .add (some "f") false (some "p") none] []).2 (by decide)

/-- C10: in `If.run` each comma-split alternative of the formatted `value2`
is stripped of surrounding whitespace before the membership test, while the
formatted `value1` is compared unstripped: with `value2` formatted to
`"x , y"` and `matches=true`, a `value1` formatted to `"y"` runs the
children, while `" y"` does not. -/
theorem claim_C10_alternatives_stripped_value1_not
    (env : RunEnv) (dd : Dict) (dyn : Bool) (v1 v2 : String)
    (c fc : Option String) (as : List ActionNode) (ed : List EditorCall) :
    (pySplitComma "x , y").map pyStrip = ["x", "y"] ∧
    (ActionNode.run env dd dyn (.cond v1 v2 true "y" "x , y" c fc as) ed =
      (match ActionNode.runList env dd dyn as ed with
       | (as2, ed2, e) => (.cond v1 v2 true "y" "x , y" c fc as2, ed2, e))) ∧
    (ActionNode.run env dd dyn (.cond v1 v2 true " y" "x , y" c fc as) ed =
      (.cond v1 v2 true " y" "x , y" c fc as, ed, none)) := by
  refine ⟨by decide, ?_, ?_⟩
  · have hc : ((pySplitComma "x , y").map pyStrip).contains "y" = true := by
      decide
    rw [ActionNode.run, if_pos hc]
  · have hc : ¬ ((pySplitComma "x , y").map pyStrip).contains " y" = true := by
      decide
    rw [ActionNode.run, if_neg hc]

/-- C5 counterexample: formatting is not idempotent.  With context
`a ↦ "{b}", b ↦ "x"`, an action whose content is `"{a}"` stores `"{b}"`
after one `formatContent` call; the second call re-formats the cached value
— not the raw text — and stores `"x"`, a different result, so double
expansion does occur. -/
theorem claim_C5_counterexample :
    ActionNode.formatContent [("a", "{b}"), ("b", "x")]
        (.config .add (some "f") false (some "{a}") none) =
      .ok (.config .add (some "f") false (some "{a}") (some "{b}")) ∧
    ActionNode.formatContent [("a", "{b}"), ("b", "x")]
        (.config .add (some "f") false (some "{a}") (some "{b}")) =
      .ok (.config .add (some "f") false (some "{a}") (some "x")) ∧
    some "x" ≠ some "{b}" :=
  ⟨rfl, rfl, by decide⟩

/-- `pyOrStr fc c = none` forces `c = None`. -/
theorem pyOrStr_none_right (fc c : Option String) (h : pyOrStr fc c = none) :
    c = none := by
  cases fc with
  | none => simpa [pyOrStr] using h
  | some t =>
      by_cases ht : t = ""
      · simp [pyOrStr, ht] at h
        exact h
      · simp [pyOrStr, ht] at h

/-- `pyOrStr fc c = some ""` forces `c = some ""`. -/
theorem pyOrStr_empty_right (fc c : Option String)
    (h : pyOrStr fc c = some "") : c = some "" := by
  cases fc with
  | none => simpa [pyOrStr] using h
  | some t =>
      by_cases ht : t = ""
      · simp [pyOrStr, ht] at h
        exact h
      · simp [pyOrStr, ht] at h

/-- When a `formatContent` pass stores `None`, the source fields were falsy
and a pass starting from a `None` cache stores `None` again. -/
theorem formatContentField_none_stable (d : Dict) (c fc : Option String)
    (h : formatContentField d c fc = .ok none) :
    formatContentField d c none = .ok none := by
  unfold formatContentField at h ⊢
  cases hpy : pyOrStr fc c with
  | none =>
      have hc := pyOrStr_none_right fc c hpy
      subst hc
      simp [pyOrStr]
  | some s =>
      rw [hpy] at h
      by_cases hs : s = ""
      · subst hs
        have hc := pyOrStr_empty_right fc c hpy
        subst hc
        simp [pyOrStr]
      · exfalso
        simp only [hs, if_false] at h
        cases hfs : formatString d s <;> rw [hfs] at h <;>
          simp [Except.map] at h

/-- C5 (amended): a second `formatContent` call starts from the cached
formatted value, not the raw text; it re-applies substitution to that cached
value, so the two-call result equals the one-call result exactly when the
once-formatted value is left unchanged by another substitution pass (and is
not the empty string, which falls back to the raw content). -/
theorem claim_C5_format_refetches_cached
    (d : Dict) (k : MutKind) (n : Option String) (dy : Bool)
    (c fc fc' : Option String)
    (h : formatContentField d c fc = .ok fc')
    (hne : fc' ≠ some "")
    (hfix : ∀ v, fc' = some v → formatString d v = .ok v) :
    formatContentField d c fc' = .ok fc' ∧
    ActionNode.formatContent d (.config k n dy c fc') =
      .ok (.config k n dy c fc') := by
  have h2 : formatContentField d c fc' = .ok fc' := by
    match hfc' : fc' with
    | some v =>
        have hv : v ≠ "" := by
          intro hv0
          exact hne (by rw [hv0])
        have h3 : formatString d v = Except.ok v := hfix v rfl
        unfold formatContentField
        have hpy : pyOrStr (some v) c = some v := by
          simp [pyOrStr, hv]
        rw [hpy]
        simp [hv, h3, Except.map]
    | none => exact formatContentField_none_stable d c fc h
  refine ⟨h2, ?_⟩
  rw [ActionNode.formatContent, h2]
  rfl

/-- Witness for the amended C5 at a concrete input: content `"{a}"` under
context `a ↦ "1"` formats to `"1"`, which a second call leaves unchanged. -/
theorem claim_C5_witness :
    formatContentField [("a", "1")] (some "{a}") (some "1") = .ok (some "1") ∧
    ActionNode.formatContent [("a", "1")]
        (.config .add (some "f") false (some "{a}") (some "1")) =
      .ok (.config .add (some "f") false (some "{a}") (some "1")) :=
  claim_C5_format_refetches_cached [("a", "1")] .add (some "f") false
    (some "{a}") none (some "1") (by decide) (by decide)
    (fun v hv => by cases hv; decide)

/-- Running a list of actions whose prefix succeeds and whose next action
raises: the prefix runs first (in declaration order), the failing action runs
from the prefix's trace, the actions after it are not run, and the error and
the trace reached so far are returned unchanged. -/
theorem runList_prefix_error
    (env : RunEnv) (dd : Dict) (dyn : Bool) (a a' : ActionNode)
    (post : List ActionNode) (ed2 : List EditorCall) (e : PyError) :
    ∀ (pre : List ActionNode) (ed ed1 : List EditorCall)
      (pre' : List ActionNode),
      ActionNode.runList env dd dyn pre ed = (pre', ed1, none) →
      ActionNode.run env dd dyn a ed1 = (a', ed2, some e) →
      ActionNode.runList env dd dyn (pre ++ a :: post) ed =
        (pre' ++ a' :: post, ed2, some e) := by
  intro pre
  induction pre with
  | nil =>
      intro ed ed1 pre' hpre ha
      rw [ActionNode.runList] at hpre
      simp only [Prod.mk.injEq] at hpre
      obtain ⟨h1, h2, _⟩ := hpre
      subst h1
      subst h2
      simp only [List.nil_append]
      rw [ActionNode.runList, ha]
  | cons b bs ih =>
      intro ed ed1 pre' hpre ha
      rw [ActionNode.runList] at hpre
      rcases hrb : ActionNode.run env dd dyn b ed with ⟨b', edb, eb⟩
      rw [hrb] at hpre
      cases eb with
      | none =>
          dsimp only at hpre
          rcases hrl : ActionNode.runList env dd dyn bs edb with ⟨bs', edl, el⟩
          rw [hrl] at hpre
          dsimp only at hpre
          simp only [Prod.mk.injEq] at hpre
          obtain ⟨h1, h2, h3⟩ := hpre
          subst h1
          subst h2
          subst h3
          have hstep := ih edb edl bs' hrl ha
          simp only [List.cons_append]
          rw [ActionNode.runList, hrb]
          dsimp only
          rw [hstep]
      | some err =>
          dsimp only at hpre
          simp only [Prod.mk.injEq] at hpre
          exact absurd hpre.2.2 (by simp)

/-- C8: `Scenario.run` runs the owned actions in declaration order; when an
action raises, the earlier actions have already run (their editor mutations
stay in the trace — no rollback), the remaining actions are not run, and the
error propagates unchanged. -/
theorem claim_C8_order_abort_no_rollback
    (env : RunEnv) (dd : Dict) (dyn : Bool) (s : Scenario)
    (pre post : List ActionNode) (a a' : ActionNode)
    (ed ed1 ed2 : List EditorCall) (pre' : List ActionNode) (e : PyError)
    (hs : s.actions = pre ++ a :: post)
    (hpre : ActionNode.runList env dd dyn pre ed = (pre', ed1, none))
    (ha : ActionNode.run env dd dyn a ed1 = (a', ed2, some e)) :
    Scenario.run env dd dyn s ed =
      ({ s with actions := pre' ++ a' :: post }, ed2, some e) := by
  rw [Scenario.run, hs,
    runList_prefix_error env dd dyn a a' post ed2 e pre ed ed1 pre' hpre ha]

/-- Witness for C8 at a concrete input: a successful `Add`, then an `Add`
whose content names a missing context entry (`KeyError`), then another
`Add`.  The run keeps the first mutation in the trace, stops before the
third action, and returns the `KeyError` unchanged. -/
theorem claim_C8_witness :
    Scenario.run sampleEnv [] false
      { name := "s", isBaseline := true, iteratorName := none,
        actions :=
          [.config .add (some "f") false (some "p") none,
           .config .add (some "g") false (some "{missing}") none,
           .config .add (some "h") false (some "q") none] } [] =
    ({ name := "s", isBaseline := true, iteratorName := none,
       actions :=
         [.config .add (some "f") false (some "p") (some "p"),
          .config .add (some "g") false (some "{missing}") none,
          .config .add (some "h") false (some "q") none] },
     [.addScenarioComponent (some "f") (some "p")],
     some (.keyError (some "missing"))) :=
  claim_C8_order_abort_no_rollback sampleEnv [] false _
    [.config .add (some "f") false (some "p") none]
    [.config .add (some "h") false (some "q") none]
    (.config .add (some "g") false (some "{missing}") none)
    (.config .add (some "g") false (some "{missing}") none)
    [] [.addScenarioComponent (some "f") (some "p")]
    [.addScenarioComponent (some "f") (some "p")]
    [.config .add (some "f") false (some "p") (some "p")]
    (.keyError (some "missing")) rfl rfl rfl

/-- The code string `Function._run` hands to `eval`:
`"editor.%s(%s)" % (name, formattedContent)`. -/
def functionCodeStr (n fc' : Option String) : String :=
  "editor." ++ pyStrOpt n ++ "(" ++ pyStrOpt fc' ++ ")"

/-- C9: for a `Function` action in its matching phase (content formatting
succeeding), an unknown or uncallable capability name raises a
`SetupException` naming the function and issues no editor call; a code
string the parser rejects (`SyntaxError`) raises a `SetupException` and
issues no call; only a known capability with a parseable argument text
reaches the editor, as a single invocation. -/
theorem claim_C9_function_failures
    (env : RunEnv) (dd : Dict) (dyn : Bool) (n : Option String)
    (c fc fc' : Option String) (ed : List EditorCall)
    (hfmt : formatContentField dd c fc = .ok fc') :
    (getCallableMethod env n = false →
      ActionNode.run env dd dyn (.func n dyn c fc) ed =
        (.func n dyn c fc', ed, some (.setupException
          ("<function name=\x27" ++ pyStrOpt n ++
           "\x27>: function doesn\x27t exist or is not callable from XML")))) ∧
    (getCallableMethod env n = true →
      env.compiles (functionCodeStr n fc') = false →
      ActionNode.run env dd dyn (.func n dyn c fc) ed =
        (.func n dyn c fc', ed, some (.setupException
          ("Failed to evaluate expression " ++ functionCodeStr n fc')))) ∧
    (getCallableMethod env n = true →
      env.compiles (functionCodeStr n fc') = true →
      ActionNode.run env dd dyn (.func n dyn c fc) ed =
        (.func n dyn c fc', ed ++ [.functionCall (functionCodeStr n fc')],
         env.beh (.functionCall (functionCodeStr n fc')))) := by
  refine ⟨?_, ?_, ?_⟩
  · intro hcall
    rw [ActionNode.run, if_pos rfl, hfmt]
    dsimp only
    simp [hcall]
  · intro hcall hcomp
    unfold functionCodeStr at hcomp
    rw [ActionNode.run, if_pos rfl, hfmt]
    dsimp only
    simp [hcall, hcomp, functionCodeStr]
  · intro hcall hcomp
    unfold functionCodeStr at hcomp
    rw [ActionNode.run, if_pos rfl, hfmt]
    dsimp only
    simp [hcall, hcomp, functionCodeStr]

/-- A runtime environment whose Python parser rejects every code string. -/
def sampleEnvNoParse : RunEnv :=
  { beh := fun _ => none, callables := ["setTol"], compiles := fun _ => false }

/-- Witness for C9 at concrete inputs: an unknown capability `nope` raises
the lookup `SetupException` without an editor call; a known capability whose
code string fails to parse raises the evaluation `SetupException` without a
call; a known capability with a parseable argument list issues exactly one
call. -/
theorem claim_C9_witness :
    (ActionNode.run sampleEnv [] false
        (.func (some "nope") false (some "3") none) [] =
      (.func (some "nope") false (some "3") (some "3"), [],
       some (.setupException
        ("<function name=\x27" ++ pyStrOpt (some "nope") ++
         "\x27>: function doesn\x27t exist or is not callable from XML")))) ∧
    (ActionNode.run sampleEnvNoParse [] false
        (.func (some "setTol") false (some "3") none) [] =
      (.func (some "setTol") false (some "3") (some "3"), [],
       some (.setupException
        ("Failed to evaluate expression " ++
         functionCodeStr (some "setTol") (some "3"))))) ∧
    (ActionNode.run sampleEnv [] false
        (.func (some "setTol") false (some "3") none) [] =
      (.func (some "setTol") false (some "3") (some "3"),
       [.functionCall (functionCodeStr (some "setTol") (some "3"))], none)) :=
  ⟨(claim_C9_function_failures sampleEnv [] false (some "nope") (some "3")
      none (some "3") [] (by decide)).1 (by decide),
   (claim_C9_function_failures sampleEnvNoParse [] false (some "setTol")
      (some "3") none (some "3") [] (by decide)).2.1 (by decide) rfl,
   (claim_C9_function_failures sampleEnv [] false (some "setTol") (some "3")
      none (some "3") [] (by decide)).2.2 (by decide) rfl⟩

/-- C7: `ScenarioSetup.run` resolves the group by the editor's group name or
the document's default; a name missing from the expanded group mapping
raises a `KeyError` carrying that name, and a scenario name missing from the
group's final mapping raises a `PygcamException` whose message carries the
requested scenario name; in both cases no action runs — the editor-call
trace is returned unchanged. -/
theorem claim_C7_lookup_errors
    (setup : ScenarioSetup) (env : RunEnv) (editor : Editor) (dd : Dict)
    (dyn : Bool) (ed : List EditorCall) :
    ((match pyOrStr editor.groupName setup.defaultGroup with
      | some k => alistGet? setup.groupDict k
      | none => none) = none →
      ScenarioSetup.run setup env editor dd dyn ed =
        (ed, some (.keyError (pyOrStr editor.groupName setup.defaultGroup)))) ∧
    (∀ k g, pyOrStr editor.groupName setup.defaultGroup = some k →
      alistGet? setup.groupDict k = some g →
      (match pyOrStr editor.scenario editor.baseline with
       | some sk => alistGet? g.finalDict sk
       | none => none) = none →
      ScenarioSetup.run setup env editor dd dyn ed =
        (ed, some (.pygcamException
          ("Scenario \x22" ++ g.name ++ "\x22 was not found in group \x22" ++
           pyStrOpt (pyOrStr editor.scenario editor.baseline) ++ "\x22")))) := by
  constructor
  · intro hmiss
    rw [ScenarioSetup.run]
    rw [hmiss]
  · intro k g hk hg hmiss
    rw [ScenarioSetup.run, hk]
    dsimp only
    rw [hg]
    dsimp only
    rw [ScenarioGroup.getFinalScenario.eq_def, hmiss]

/-- A concrete expanded setup for the C7 witness: one group `g1` holding one
scenario `s1`. -/
def sampleSetup : ScenarioSetup :=
  { name := "setup"
    defaultGroup := some "g1"
    templateDict := [("scenarioDir", "{scenarioDir}"),
                     ("baselineDir", "{baselineDir}")]
    iteratorDict := []
    groupDict :=
      [("g1",
        { name := "g1", useGroupDir := false, isDefault := true,
          iteratorName := none, baselineSource := none,
          templateScenarios := [],
          finalDict := [("s1",
            { name := "s1", isBaseline := true, iteratorName := none,
              actions := [] })] })] }

/-- Witness for C7 at concrete inputs: requesting group `g2` raises
`KeyError("g2")` with no editor call; requesting scenario `s9` in `g1`
raises the `PygcamException` message carrying `s9`, with no editor call. -/
theorem claim_C7_witness :
    (ScenarioSetup.run sampleSetup sampleEnv
        { groupName := some "g2", scenario := some "s1", baseline := none }
        [] false [] =
      ([], some (.keyError (some "g2")))) ∧
    (ScenarioSetup.run sampleSetup sampleEnv
        { groupName := some "g1", scenario := some "s9", baseline := none }
        [] false [] =
      ([], some (.pygcamException
        ("Scenario \x22g1\x22 was not found in group \x22s9\x22")))) := by
  constructor
  · exact (claim_C7_lookup_errors sampleSetup sampleEnv
      { groupName := some "g2", scenario := some "s1", baseline := none }
      [] false []).1 rfl
  · have h := (claim_C7_lookup_errors sampleSetup sampleEnv
      { groupName := some "g1", scenario := some "s9", baseline := none }
      [] false []).2 "g1"
      ({ name := "g1", useGroupDir := false, isDefault := true,
         iteratorName := none, baselineSource := none,
         templateScenarios := [],
         finalDict := [("s1",
           { name := "s1", isBaseline := true, iteratorName := none,
             actions := [] })] })
      rfl rfl rfl
    exact h

/-- Re-setting the same key overwrites the previous value in place. -/
theorem Dict.set_set_same (d : Dict) (k a b : String) :
    Dict.set (Dict.set d k a) k b = Dict.set d k b := by
  induction d with
  | nil => simp [Dict.set]
  | cons kv rest ih =>
      rcases kv with ⟨k', v'⟩
      by_cases hk : k' = k
      · simp [Dict.set, hk]
      · simp [Dict.set, hk, ih]

/-- Overwriting an already-inserted key leaves the positions of intervening
keys unchanged: with `X ≠ Y`, setting `X`, then `Y`, then `X` again equals
setting `X` to its final value and then `Y`. -/
theorem Dict.set_overwrite_comm (d : Dict) (X Y a b c : String)
    (hXY : X ≠ Y) :
    Dict.set (Dict.set (Dict.set d X a) Y b) X c =
      Dict.set (Dict.set d X c) Y b := by
  induction d with
  | nil => simp [Dict.set, hXY, Ne.symm hXY]
  | cons kv rest ih =>
      rcases kv with ⟨k, w⟩
      by_cases hkX : k = X
      · simp [Dict.set, hkX, hXY, Ne.symm hXY]
      · by_cases hkY : k = Y
        · simp [Dict.set, hkX, hkY, hXY, Ne.symm hXY, Dict.set_set_same]
        · simp [Dict.set, hkX, hkY, ih]

/-- A nonempty run of `set`s of the same key collapses to one `set`. -/
theorem foldl_set_last (Y : String) :
    ∀ (ys : List String) (D : Dict), ys ≠ [] →
      ∃ l, ys.foldl (fun d y => Dict.set d Y y) D = Dict.set D Y l := by
  intro ys
  induction ys with
  | nil => intro D h; exact absurd rfl h
  | cons y ys' ih =>
      intro D _
      cases ys' with
      | nil => exact ⟨y, rfl⟩
      | cons z zs =>
          obtain ⟨l, hl⟩ := ih (Dict.set D Y y) (by simp)
          exact ⟨l, by rw [List.foldl_cons, hl, Dict.set_set_same]⟩

/-- The expansion callback used for observing cross-product order: record
`e` of the current template dict at each innermost call, leaving the dict
untouched (as scenario-level expansion does). -/
def collectExpand {α : Type} (e : Dict → α) :
    Dict → List α → Except PyError (Dict × List α) :=
  fun d l => Except.ok (d, l ++ [e d])

/-- The innermost `iterateList` loop over one iterator's values emits one
record per value, in value order, each seeing its own binding. -/
theorem iterLoop_collect {α : Type} (e : Dict → α) (Y : String) :
    ∀ (ys : List String) (td : Dict) (s : List α),
      iterLoop (collectExpand e) Y ys td s =
        .ok (ys.foldl (fun d y => Dict.set d Y y) td,
             s ++ ys.map (fun y => e (Dict.set td Y y))) := by
  intro ys
  induction ys with
  | nil =>
      intro td s
      rw [iterLoop]
      simp
  | cons y ys' ih =>
      intro td s
      rw [iterLoop]
      dsimp only [collectExpand]
      rw [ih]
      have hmap : ys'.map (fun y2 => e (Dict.set (Dict.set td Y y) Y y2)) =
          ys'.map (fun y2 => e (Dict.set td Y y2)) :=
        List.map_congr_left (fun y2 _ => by rw [Dict.set_set_same])
      simp [hmap]

/-- The outer `iterateList` loop over `X` with inner iterator `Y`: starting
from any dict that agrees with `td` once both iterator keys are bound, the
loop emits the records of the full cross product, the outer value changing
slowest, one record per combination. -/
theorem iterLoop_outer {α : Type} (e : Dict → α)
    (iterDict : List (String × Iterator)) (X Y : String) (itY : Iterator)
    (hXY : X ≠ Y) (hY : alistGet? iterDict Y = some itY) :
    ∀ (xs : List String) (td0 td : Dict) (s : List α),
      (∀ x y, Dict.set (Dict.set td0 X x) Y y =
              Dict.set (Dict.set td X x) Y y) →
      ∃ tdf,
        iterLoop
            (fun td2 s2 =>
              iterateList iterDict (collectExpand e) [Y] td2 s2)
            X xs td0 s =
          .ok (tdf, s ++ xs.bind (fun x =>
            itY.values.map (fun y =>
              e (Dict.set (Dict.set td X x) Y y)))) := by
  intro xs
  induction xs with
  | nil =>
      intro td0 td s hinv
      refine ⟨td0, ?_⟩
      rw [iterLoop]
      simp
  | cons x xs' ih =>
      intro td0 td s hinv
      have hbody :
          iterateList iterDict (collectExpand e) [Y] (Dict.set td0 X x) s =
            .ok (itY.values.foldl (fun d y => Dict.set d Y y)
                   (Dict.set td0 X x),
                 s ++ itY.values.map (fun y =>
                   e (Dict.set (Dict.set td0 X x) Y y))) := by
        rw [iterateList]
        unfold getIterator
        rw [hY]
        dsimp only
        exact iterLoop_collect e Y itY.values (Dict.set td0 X x) s
      rw [iterLoop]
      rw [hbody]
      dsimp only
      have hmap : itY.values.map (fun y => e (Dict.set (Dict.set td0 X x) Y y)) =
          itY.values.map (fun y => e (Dict.set (Dict.set td X x) Y y)) :=
        List.map_congr_left (fun y _ => by rw [hinv])
      have hinv2 : ∀ x' y,
          Dict.set (Dict.set (itY.values.foldl (fun d y => Dict.set d Y y)
              (Dict.set td0 X x)) X x') Y y =
            Dict.set (Dict.set td X x') Y y := by
        intro x' y
        cases hys : itY.values with
        | nil =>
            simp only [hys, List.foldl_nil]
            rw [show Dict.set (Dict.set (Dict.set td0 X x) X x') Y y =
                  Dict.set (Dict.set td0 X x') Y y by
                rw [Dict.set_set_same]]
            exact hinv x' y
        | cons z zs =>
            obtain ⟨l, hl⟩ := foldl_set_last Y itY.values (Dict.set td0 X x)
              (by rw [hys]; simp)
            rw [hys] at hl
            rw [hl, Dict.set_overwrite_comm _ _ _ _ _ _ hXY,
              Dict.set_set_same]
            exact hinv x' y
      obtain ⟨tdf, htail⟩ := ih
        (itY.values.foldl (fun d y => Dict.set d Y y) (Dict.set td0 X x)) td
        (s ++ itY.values.map (fun y => e (Dict.set (Dict.set td X x) Y y)))
        hinv2
      refine ⟨tdf, ?_⟩
      rw [hmap, htail]
      simp [List.cons_bind, List.append_assoc]

/-- C4: driving a template expansion with the ordered iterator names
`[X, Y]` nests `Y` inside `X`: the first name is the outermost loop (its
value changes slowest), and the expansion callback fires exactly once per
combination, at the innermost level, observing the bindings
`(x, y)` in the order `(x1,y1), (x1,y2), ..., (x2,y1), ...` — the full
cross product in outer-major order. -/
theorem claim_C4_cross_product_order {α : Type} (e : Dict → α)
    (iterDict : List (String × Iterator)) (X Y : String) (itX itY : Iterator)
    (hXY : X ≠ Y) (hX : alistGet? iterDict X = some itX)
    (hY : alistGet? iterDict Y = some itY) (td : Dict) (init : List α) :
    ∃ tdf,
      iterateList iterDict (collectExpand e) [X, Y] td init =
        .ok (tdf, init ++ itX.values.bind (fun x =>
          itY.values.map (fun y =>
            e (Dict.set (Dict.set td X x) Y y)))) := by
  rw [iterateList]
  unfold getIterator
  rw [hX]
  dsimp only
  exact iterLoop_outer e iterDict X Y itY hXY hY itX.values td td init
    (fun _ _ => rfl)

/-- Witness for C4 at the spec's concrete input: `X = ["1","2"]` (outer),
`Y = ["a","b"]` (inner), observing `(X, Y)` at each innermost call, yields
`(1,a), (1,b), (2,a), (2,b)` in that order. -/
theorem claim_C4_witness :
    ∃ tdf,
      iterateList
          [("X", { name := "X", values := ["1", "2"] }),
           ("Y", { name := "Y", values := ["a", "b"] })]
          (collectExpand (fun d => (Dict.get? d "X", Dict.get? d "Y")))
          ["X", "Y"] [] [] =
        .ok (tdf,
          [(some "1", some "a"), (some "1", some "b"),
           (some "2", some "a"), (some "2", some "b")]) := by
  obtain ⟨tdf, h⟩ := claim_C4_cross_product_order
    (fun d => (Dict.get? d "X", Dict.get? d "Y"))
    [("X", { name := "X", values := ["1", "2"] }),
     ("Y", { name := "Y", values := ["a", "b"] })]
    "X" "Y" { name := "X", values := ["1", "2"] }
    { name := "Y", values := ["a", "b"] }
    (by decide) rfl rfl [] []
  refine ⟨tdf, ?_⟩
  rw [h]
  rfl

/-- C6: when two expansions generate the same final name, the later one
silently overwrites the earlier in the owning mapping, with no error: at the
scenario level, expanding two templates whose names format to the same `n`
leaves `finalDict` with exactly the one entry `(n, later scenario)`; at the
group level, expanding two group templates whose names format to the same
`n` leaves the group mapping with exactly the one entry `(n, later group)`. -/
theorem claim_C6_collision_later_wins
    (iterDict : List (String × Iterator)) :
    (∀ (td : Dict) (s1 s2 : Scenario) (n : String) (s1e s2e : Scenario),
      s1.iteratorName = none → s2.iteratorName = none →
      formatString td s1.name = .ok n →
      formatString td s2.name = .ok n →
      Scenario.formatContent td { s1 with name := n } = .ok s1e →
      Scenario.formatContent td { s2 with name := n } = .ok s2e →
      expandScenarioTemplates iterDict [s1, s2] td [] =
        .ok (td, [(n, s2e)])) ∧
    (∀ (td td1 td2 : Dict) (g1 g2 : ScenarioGroup) (n : String)
       (g1e g2e : ScenarioGroup),
      g1.iteratorName = none → g2.iteratorName = none →
      formatString td g1.name = .ok n →
      ScenarioGroup.expandScenarios iterDict { g1 with name := n } td =
        .ok (g1e, td1) →
      formatString td1 g2.name = .ok n →
      ScenarioGroup.expandScenarios iterDict { g2 with name := n } td1 =
        .ok (g2e, td2) →
      expandGroupTemplates iterDict [g1, g2] td [] =
        .ok (td2, [(n, g2e)])) := by
  constructor
  · intro td s1 s2 n s1e s2e hi1 hi2 hf1 hf2 hc1 hc2
    rw [expandScenarioTemplates]
    rw [hi1]
    dsimp only [pyTruthyOpt]
    rw [if_neg (by simp)]
    unfold expandScenarioInto
    rw [hf1]
    dsimp only
    rw [hc1]
    dsimp only
    rw [expandScenarioTemplates]
    rw [hi2]
    dsimp only [pyTruthyOpt]
    rw [if_neg (by simp)]
    unfold expandScenarioInto
    rw [hf2]
    dsimp only
    rw [hc2]
    dsimp only
    rw [expandScenarioTemplates]
    dsimp only [alistSet]
    simp
  · intro td td1 td2 g1 g2 n g1e g2e hi1 hi2 hf1 he1 hf2 he2
    rw [expandGroupTemplates]
    rw [hi1]
    dsimp only [pyTruthyOpt]
    rw [if_neg (by simp)]
    unfold expandGroupInto
    rw [hf1]
    dsimp only
    rw [he1]
    dsimp only
    rw [expandGroupTemplates]
    rw [hi2]
    dsimp only [pyTruthyOpt]
    rw [if_neg (by simp)]
    unfold expandGroupInto
    rw [hf2]
    dsimp only
    rw [he2]
    dsimp only
    rw [expandGroupTemplates]
    dsimp only [alistSet]
    simp

/-- Witness for C6 at concrete inputs: two scenario templates named `dup`
(a baseline and a non-baseline) leave exactly one `finalDict` entry, the
later (non-baseline) one; two group templates named `dup` likewise leave
exactly the later group. -/
theorem claim_C6_witness :
    (expandScenarioTemplates []
        [{ name := "dup", isBaseline := true, iteratorName := none,
           actions := [] },
         { name := "dup", isBaseline := false, iteratorName := none,
           actions := [] }] [] [] =
      .ok ([], [("dup",
        { name := "dup", isBaseline := false, iteratorName := none,
          actions := [] })])) ∧
    (expandGroupTemplates []
        [{ name := "dup", useGroupDir := true, isDefault := false,
           iteratorName := none, baselineSource := none,
           templateScenarios := [], finalDict := [] },
         { name := "dup", useGroupDir := false, isDefault := false,
           iteratorName := none, baselineSource := none,
           templateScenarios := [], finalDict := [] }] [] [] =
      .ok ([], [("dup",
        { name := "dup", useGroupDir := false, isDefault := false,
          iteratorName := none, baselineSource := none,
          templateScenarios := [], finalDict := [] })])) :=
  ⟨(claim_C6_collision_later_wins []).1 []
      { name := "dup", isBaseline := true, iteratorName := none,
        actions := [] }
      { name := "dup", isBaseline := false, iteratorName := none,
        actions := [] }
      "dup"
      { name := "dup", isBaseline := true, iteratorName := none,
        actions := [] }
      { name := "dup", isBaseline := false, iteratorName := none,
        actions := [] }
      rfl rfl rfl rfl rfl rfl,
   (claim_C6_collision_later_wins []).2 [] [] []
      { name := "dup", useGroupDir := true, isDefault := false,
        iteratorName := none, baselineSource := none,
        templateScenarios := [], finalDict := [] }
      { name := "dup", useGroupDir := false, isDefault := false,
        iteratorName := none, baselineSource := none,
        templateScenarios := [], finalDict := [] }
      "dup"
      { name := "dup", useGroupDir := true, isDefault := false,
        iteratorName := none, baselineSource := none,
        templateScenarios := [], finalDict := [] }
      { name := "dup", useGroupDir := false, isDefault := false,
        iteratorName := none, baselineSource := none,
        templateScenarios := [], finalDict := [] }
      rfl rfl rfl rfl rfl rfl⟩
